import Mathlib

/-!
Shallow embedding of the hootcad geometry/parameter pipeline.

The development models:
* `src/parameterCache.ts` — `ParameterCache` (merge of defaults with cached,
  type-coerced parameter overrides, and single-parameter update), plus the
  `InputController` wheel handling appended to that file;
* `src/threeJsConverter.ts` — fan triangulation and geom3 → buffer conversion;
* `jscadEngine` (entrypoint resolution, script execution and geometry
  serialization).

JavaScript dynamic values are modelled by the inductive `JsValue`.  Finite JS
numbers are modelled as rationals (`ℚ`); the non-finite results `NaN` and
`±Infinity` are collapsed into the single constructor `JsValue.nan` (they are
only ever observed through `Number.isFinite`, which is false for all of them).
Geometry arithmetic (`threeJsConverter.ts`) uses IEEE doubles in the source; it
is idealized here over the real numbers `ℝ`.
-/

/-- Model of a JavaScript runtime value as far as the parameter cache and the
geometry engine observe one.  `nan` stands for any non-finite number. -/
inductive JsValue where
  | undef
  | null
  | bool (b : Bool)
  | num (q : ℚ)
  | nan
  | str (s : String)
  | arr (elems : List JsValue)
  | obj (fields : List (String × JsValue))
deriving Repr

/-- JS truthiness (`Boolean(v)`), for the values `JsValue` models.
`undefined`, `null`, `false`, `0`, `NaN` and `""` are falsy; arrays and
objects are always truthy. -/
def truthy : JsValue → Bool
  | JsValue.undef => false
  | JsValue.null => false
  | JsValue.bool b => b
  | JsValue.num q => decide (q ≠ 0)
  | JsValue.nan => false
  | JsValue.str s => decide (s ≠ "")
  | JsValue.arr _ => true
  | JsValue.obj _ => true

/-- Model of JS `Number(v)` for non-string values, returning `none` for a
non-finite result.  Strings never reach this function in `coerceValue` (they
take the `parseInt`/`parseFloat` branch first); array/object conversion is
modelled as non-finite. -/
def toNumber : JsValue → Option ℚ
  | JsValue.undef => none
  | JsValue.null => some 0
  | JsValue.bool b => some (if b then 1 else 0)
  | JsValue.num q => some q
  | JsValue.nan => none
  | JsValue.str _ => none
  | JsValue.arr _ => none
  | JsValue.obj _ => none

/-- Digit list to natural number, most significant first. -/
def digitsToNat (cs : List Char) : ℕ :=
  cs.foldl (fun n c => 10 * n + (c.toNat - '0'.toNat)) 0

/-- Model of JS `parseInt(s, 10)`: skip leading spaces, read an optional sign
and then the longest prefix of decimal digits; `none` models a `NaN` result
(no digits).  Hexadecimal prefixes and exponents are not modelled. -/
def parseIntJs (s : String) : Option ℤ :=
  let cs := s.data.dropWhile (fun c => c = ' ')
  match cs with
  | '-' :: rest =>
    let ds := rest.takeWhile Char.isDigit
    if ds = [] then none else some (-(digitsToNat ds : ℤ))
  | '+' :: rest =>
    let ds := rest.takeWhile Char.isDigit
    if ds = [] then none else some ((digitsToNat ds : ℤ))
  | rest =>
    let ds := rest.takeWhile Char.isDigit
    if ds = [] then none else some ((digitsToNat ds : ℤ))

/-- Model of JS `parseFloat(s)`: skip leading spaces, optional sign, integer
digits, optional `.` and fraction digits; `none` models a `NaN` result (no
digits at all).  Exponent notation is not modelled. -/
def parseFloatUnsigned (cs : List Char) : Option ℚ :=
  let intDs := cs.takeWhile Char.isDigit
  let afterInt := cs.dropWhile Char.isDigit
  let fracDs :=
    match afterInt with
    | '.' :: rest => rest.takeWhile Char.isDigit
    | _ => []
  if intDs = [] ∧ fracDs = [] then none
  else
    some ((digitsToNat intDs : ℚ) + (digitsToNat fracDs : ℚ) / (10 : ℚ) ^ fracDs.length)

/-- Signed variant of `parseFloatUnsigned`, completing the `parseFloat`
model. -/
def parseFloatJs (s : String) : Option ℚ :=
  let cs := s.data.dropWhile (fun c => c = ' ')
  match cs with
  | '-' :: rest => (parseFloatUnsigned rest).map (fun q => -q)
  | '+' :: rest => parseFloatUnsigned rest
  | rest => parseFloatUnsigned rest

/-- Model of JS `Math.trunc`: round toward zero. -/
def jsTrunc (q : ℚ) : ℚ :=
  if 0 ≤ q then (⌊q⌋ : ℚ) else (⌈q⌉ : ℚ)

/-- Model of JS `String(v)` as used for `choice` matching.  Integer-valued
numbers print exactly; other rationals are printed as fractions (an
approximation of JS decimal printing that only affects which choice entries
compare equal). -/
def jsToString : JsValue → String
  | JsValue.undef => "undefined"
  | JsValue.null => "null"
  | JsValue.bool b => if b then "true" else "false"
  | JsValue.num q => if q.den = 1 then toString q.num else toString q.num ++ "/" ++ toString q.den
  | JsValue.nan => "NaN"
  | JsValue.str s => s
  | JsValue.arr _ => "[array]"
  | JsValue.obj _ => "[object Object]"

/-- Declared parameter types of `ParameterDefinition.type` (jscadEngine). -/
inductive ParamType where
  | number
  | float
  | int
  | slider
  | text
  | checkbox
  | choice
  | color
  | date
  | email
  | password
  | url
deriving DecidableEq, Repr

/-- Shallow embedding of the `ParameterDefinition` interface (jscadEngine);
only the fields read by `getMergedParameters` are modelled.  `checked` is the
declared `boolean | undefined`; `values` is `some` exactly when `def.values`
is an array. -/
structure ParameterDefinition where
  name : String
  type : ParamType
  initial : Option JsValue := none
  checked : Option Bool := none
  values : Option (List JsValue) := none

/-- Lower-casing of a string (`value.toLowerCase()`), written over the
character list so that it evaluates by kernel reduction. -/
def toLowerJs (s : String) : String := String.mk (s.data.map Char.toLower)

/-- Suffix test (`path.endsWith(suffix)`), written over the character lists so
that it evaluates by kernel reduction. -/
def jsEndsWith (s post : String) : Bool := List.isSuffixOf post.data s.data

/-- Checkbox branch of `coerceValue`: booleans pass through, strings compare
case-insensitively against `"true"`, everything else is converted by JS
truthiness. -/
def coerceCheckbox : JsValue → JsValue
  | JsValue.bool b => JsValue.bool b
  | JsValue.str s => JsValue.bool (toLowerJs s == "true")
  | v => JsValue.bool (truthy v)

/-- Shallow embedding of the local `coerceValue` helper inside
`ParameterCache.getMergedParameters` (src/parameterCache.ts).  A `none`
result models the function returning `undefined` (coercion failure). -/
def coerceValue (d : ParameterDefinition) (value : JsValue) : Option JsValue :=
  match value with
  | JsValue.undef => none
  | v =>
    match d.type with
    | ParamType.checkbox => some (coerceCheckbox v)
    | ParamType.int =>
      match v with
      | JsValue.num q => some (JsValue.num (jsTrunc q))
      | JsValue.str s => (parseIntJs s).map (fun n => JsValue.num (jsTrunc (n : ℚ)))
      | w => (toNumber w).map (fun q => JsValue.num (jsTrunc q))
    | ParamType.number | ParamType.float | ParamType.slider =>
      match v with
      | JsValue.num q => some (JsValue.num q)
      | JsValue.str s => (parseFloatJs s).map JsValue.num
      | w => (toNumber w).map JsValue.num
    | ParamType.choice =>
      match d.values with
      | some vs =>
        some (match vs.find? (fun x => jsToString x == jsToString v) with
              | some m => m
              | none => v)
      | none => some v
    | _ => some v

/-- Default value computed by the first loop of `getMergedParameters`
(src/parameterCache.ts lines 88-100); `none` means the loop assigns nothing
for this definition.  The four branches mirror the source `if` chain:
checkbox → `checked ?? false`; choice with an `initial` → that initial;
choice with a non-empty `values` array → its first entry; otherwise the
`initial` when declared. -/
def defaultValue (d : ParameterDefinition) : Option JsValue :=
  if d.type = ParamType.checkbox then some (JsValue.bool (d.checked.getD false))
  else if d.type = ParamType.choice ∧ d.initial.isSome then d.initial
  else if d.type = ParamType.choice ∧ 0 < (d.values.getD []).length then
    some ((d.values.getD []).headD JsValue.undef)
  else d.initial

/-- Model of a JS plain object used as a string-keyed record: `none` means the
property is absent (`hasOwnProperty` false); `some JsValue.undef` is a present
property holding `undefined`. -/
def JsRecord : Type := String → Option JsValue

/-- Empty record. -/
def JsRecord.empty : JsRecord := fun _ => none

/-- Property assignment `m[k] = v`. -/
def JsRecord.set (m : JsRecord) (k : String) (v : JsValue) : JsRecord :=
  fun k2 => if k2 = k then some v else m k2

/-- Body of the first loop of `getMergedParameters`: assign the computed
default, when there is one. -/
def applyDefault (merged : JsRecord) (d : ParameterDefinition) : JsRecord :=
  match defaultValue d with
  | some v => merged.set d.name v
  | none => merged

/-- First loop of `getMergedParameters`: populate `merged` with defaults. -/
def mergeDefaults (definitions : List ParameterDefinition) : JsRecord :=
  definitions.foldl applyDefault JsRecord.empty

/-- Body of the second loop of `getMergedParameters`: when the cache for this
file has an own property for the definition's name, coerce it and — only on
coercion success — override. -/
def applyOverride (cached : JsRecord) (merged : JsRecord) (d : ParameterDefinition) :
    JsRecord :=
  match cached d.name with
  | some cv =>
    match coerceValue d cv with
    | some c => merged.set d.name c
    | none => merged
  | none => merged

/-- Second loop of `getMergedParameters`: override with cached values, coerced
to the definition type, skipping failed (undefined) coercions. -/
def mergeOverrides (cached : JsRecord) (definitions : List ParameterDefinition)
    (merged : JsRecord) : JsRecord :=
  definitions.foldl (applyOverride cached) merged

/-- Shallow embedding of `ParameterCache.getMergedParameters`
(src/parameterCache.ts lines 45-113), with the cached-for-this-file record
passed in directly (the method reads it from `this.cache.get(filePath) || {}`). -/
def getMergedParameters (cached : JsRecord) (definitions : List ParameterDefinition) : JsRecord :=
  mergeOverrides cached definitions (mergeDefaults definitions)

/-- Model of the `ParameterCache.cache` map: file path → cached record. -/
def CacheState : Type := String → Option JsRecord

/-- Shallow embedding of `ParameterCache.updateParameter`
(src/parameterCache.ts lines 35-40): read the record for the file (or a fresh
empty one), assign the single property, store the record back. -/
def updateParameter (cache : CacheState) (filePath paramName : String) (value : JsValue) :
    CacheState :=
  let current := (cache filePath).getD JsRecord.empty
  fun fp => if fp = filePath then some (current.set paramName value) else cache fp

/-- Concrete cache with one file and one parameter, used to instantiate the
frame property of `updateParameter`. -/
def frameWitnessCache : CacheState :=
  fun fp => if fp = "a.jscad" then some (JsRecord.empty.set "size" (JsValue.num 4)) else none

/-- Vertex of a polygon, an `[x, y, z]` triple (src/threeJsConverter.ts);
IEEE doubles idealized as reals. -/
structure Vec3 where
  x : ℝ
  y : ℝ
  z : ℝ

/-- Shallow embedding of `triangulatePolygon` (src/threeJsConverter.ts lines
52-65): fan triangulation emitting the triple `(0, i, i+1)` for each `i` with
`1 ≤ i < vertices.length - 1`. -/
def triangulatePolygon (vertices : List Vec3) : List (ℕ × ℕ × ℕ) :=
  if vertices.length < 3 then []
  else (List.range' 1 (vertices.length - 2)).map (fun i => (0, i, i + 1))

/-- Cross product `(v1 − v0) × (v2 − v0)` of the edge vectors spanned by the
first three vertices (src/threeJsConverter.ts lines 95-116); zero when fewer
than three vertices exist (that case is guarded out by the caller). -/
def edgeCross (vertices : List Vec3) : Vec3 :=
  match vertices with
  | v0 :: v1 :: v2 :: _ =>
    let edge1 := Vec3.mk (v1.x - v0.x) (v1.y - v0.y) (v1.z - v0.z)
    let edge2 := Vec3.mk (v2.x - v0.x) (v2.y - v0.y) (v2.z - v0.z)
    Vec3.mk (edge1.y * edge2.z - edge1.z * edge2.y)
      (edge1.z * edge2.x - edge1.x * edge2.z)
      (edge1.x * edge2.y - edge1.y * edge2.x)
  | _ => Vec3.mk 0 0 0

/-- Euclidean length as computed by the source:
`Math.sqrt(n[0]*n[0] + n[1]*n[1] + n[2]*n[2])`. -/
noncomputable def vecLength (v : Vec3) : ℝ :=
  Real.sqrt (v.x * v.x + v.y * v.y + v.z * v.z)

/-- Face normal after the normalization step (src/threeJsConverter.ts lines
112-124): the cross product divided by its length when that length is
positive, left untouched (the zero vector) otherwise. -/
noncomputable def normalizedFaceNormal (vertices : List Vec3) : Vec3 :=
  let normal := edgeCross vertices
  let length := vecLength normal
  if 0 < length then Vec3.mk (normal.x / length) (normal.y / length) (normal.z / length)
  else normal

/-- Per-polygon contribution to the flat `positions` array of
`convertGeom3ToBufferGeometry`: for every triangle and every of its three
vertex indices, push the vertex's three coordinates. -/
def polygonPositions (vertices : List Vec3) : List ℝ :=
  if vertices.length < 3 then []
  else
    (triangulatePolygon vertices).flatMap (fun t =>
      [t.1, t.2.1, t.2.2].flatMap (fun i =>
        let v := vertices.getD i (Vec3.mk 0 0 0)
        [v.x, v.y, v.z]))

/-- Per-polygon contribution to the flat `normals` array of
`convertGeom3ToBufferGeometry`: the single face normal is pushed once per
triangle vertex. -/
noncomputable def polygonNormals (vertices : List Vec3) : List ℝ :=
  if vertices.length < 3 then []
  else
    let n := normalizedFaceNormal vertices
    (triangulatePolygon vertices).flatMap (fun t =>
      [t.1, t.2.1, t.2.2].flatMap (fun _ => [n.x, n.y, n.z]))

/-- JSCAD geom3 structure (src/threeJsConverter.ts). -/
structure Geom3 where
  polygons : List (List Vec3)
  transforms : Option (List ℝ) := none

/-- Buffer data produced by the converter (src/threeJsConverter.ts); the
typed-array wrappers are dropped, keeping the flat number sequences. -/
structure BufferGeometryData where
  positions : List ℝ
  normals : List ℝ
  transforms : Option (List ℝ)

/-- Shallow embedding of `convertGeom3ToBufferGeometry`
(src/threeJsConverter.ts lines 82-148): each polygon appends its triangle
positions and replicated face normal to the two accumulator arrays. -/
noncomputable def convertGeom3ToBufferGeometry (geom3 : Geom3) : BufferGeometryData :=
  { positions := geom3.polygons.flatMap polygonPositions
    normals := geom3.polygons.flatMap polygonNormals
    transforms := geom3.transforms }

/-- Source tags of a resolved entrypoint (jscadEngine `JscadEntrypoint`). -/
inductive EntrySource where
  | packageJson
  | indexJscad
  | activeEditor
deriving DecidableEq, Repr

/-- Resolved entrypoint (jscadEngine `JscadEntrypoint`). -/
structure JscadEntrypoint where
  filePath : String
  source : EntrySource
deriving DecidableEq, Repr

/-- Manifest content as far as the resolver reads it: the `main` field when it
is present and a string, `none` otherwise. -/
structure JsonManifest where
  main : Option String

/-- File-system and JSON oracle for the resolver: `fileExists` models
`fs.existsSync`; `packageJsonParse` models the outcome of
`JSON.parse(fs.readFileSync(packageJsonPath))` — `Except.error` is a thrown
parse error (malformed manifest). -/
structure ResolveFs where
  fileExists : String → Bool
  packageJsonParse : Except Unit JsonManifest

/-- Model of `path.join` / `path.resolve` against a root; path normalization
and absolute-path handling are not needed by the resolution logic. -/
def joinPath (root name : String) : String := root ++ "/" ++ name

/-- Shallow embedding of `resolveFromActiveEditor` (jscadEngine): the active
editor path, when supplied and ending in `.jscad`. -/
def resolveFromActiveEditor (activeEditorFilePath : Option String) : Option JscadEntrypoint :=
  match activeEditorFilePath with
  | some p =>
    if jsEndsWith p ".jscad" then some (JscadEntrypoint.mk p EntrySource.activeEditor) else none
  | none => none

/-- Shallow embedding of `resolveJscadEntrypointWithOptions` (jscadEngine
lines 121-158).  The early-return chain becomes: manifest step (guarded by
`fs.existsSync(packageJsonPath)`, with a parse error caught and treated as no
match), then `index.jscad`, then the active-editor fallback. -/
def manifestStep (fs : ResolveFs) (root : String) : Option JscadEntrypoint :=
  let packageJsonPath := joinPath root "package.json"
  if fs.fileExists packageJsonPath then
    match fs.packageJsonParse with
    | Except.ok packageJson =>
      match packageJson.main with
      | some m =>
        let mainPath := joinPath root m
        if jsEndsWith mainPath ".jscad" && fs.fileExists mainPath then
          some (JscadEntrypoint.mk mainPath EntrySource.packageJson)
        else none
      | none => none
    | Except.error _ => none
  else none

/-- Remainder of `resolveJscadEntrypointWithOptions`: `manifestStep` is the
manifest check (step 1, the body of the `if fs.existsSync(packageJsonPath)`
block with its `try`/`catch`); a hit returns early, otherwise resolution
continues with `index.jscad` and the active-editor fallback. -/
def resolveJscadEntrypointWithOptions (fs : ResolveFs) (workspaceRoot : Option String)
    (activeEditorFilePath : Option String) : Option JscadEntrypoint :=
  match workspaceRoot with
  | none => resolveFromActiveEditor activeEditorFilePath
  | some root =>
    match manifestStep fs root with
    | some e => some e
    | none =>
      let indexJscadPath := joinPath root "index.jscad"
      if fs.fileExists indexJscadPath then
        some (JscadEntrypoint.mk indexJscadPath EntrySource.indexJscad)
      else resolveFromActiveEditor activeEditorFilePath

/-- Property access `v.k`, yielding `undefined` when the field is absent or
the receiver is not an object (access on `null`/`undefined` would throw, but
every use below is guarded by a truthiness check first). -/
def getField (v : JsValue) (k : String) : JsValue :=
  match v with
  | JsValue.obj fields =>
    match fields.lookup k with
    | some w => w
    | none => JsValue.undef
  | _ => JsValue.undef

/-- Array test `Array.isArray(v)`. -/
def isArray : JsValue → Bool
  | JsValue.arr _ => true
  | _ => false

/-- Serialized geometry sent to the webview by `executeJscadFile`
(jscadEngine lines 228-260). -/
inductive SerializedGeom where
  | geom3 (polygons : JsValue) (transforms : JsValue) (color : JsValue)
  | geom2 (sides : JsValue) (transforms : JsValue) (color : JsValue)
  | unknown (data : JsValue)

/-- Shallow embedding of the serialization callback inside `executeJscadFile`:
classify by the presence of an array-valued `polygons` / `sides` field; the
unknown branch logs `Object.keys(geom)`, which throws a `TypeError` when the
value is `null` or `undefined` and otherwise passes the raw object through
under the `unknown` tag. -/
def serializeGeometry (geom : JsValue) : Except String SerializedGeom :=
  let hasPolygons := truthy geom && isArray (getField geom "polygons")
  let hasSides := truthy geom && isArray (getField geom "sides")
  if hasPolygons then
    Except.ok (SerializedGeom.geom3 (getField geom "polygons") (getField geom "transforms")
      (getField geom "color"))
  else if hasSides then
    Except.ok (SerializedGeom.geom2 (getField geom "sides") (getField geom "transforms")
      (getField geom "color"))
  else
    match geom with
    | JsValue.null => Except.error "TypeError"
    | JsValue.undef => Except.error "TypeError"
    | g => Except.ok (SerializedGeom.unknown g)

/-- Module exports of a loaded JSCAD script, as far as `executeJscadFile`
reads them: `main` is `some` exactly when the export is present and callable
(`!jscadModule.main || typeof jscadModule.main !== 'function'` is the source
guard; a function value is always truthy, so the guard reduces to the export
not being a function). -/
structure JscadModule where
  main : Option (JsValue → JsValue)

/-- Shallow embedding of `executeJscadFile` (jscadEngine lines 201-272) after
the script module is loaded: require a callable `main`, invoke it, wrap a
non-array result into a singleton list, and serialize every geometry.
`Except.error` models a thrown error (the source rethrows after logging). -/
def executeJscadFile (jscadModule : JscadModule) (params : JsValue) :
    Except String (List SerializedGeom) :=
  match jscadModule.main with
  | none => Except.error "JSCAD file must export a main() function"
  | some mainFn =>
    let result := mainFn params
    let geometries :=
      match result with
      | JsValue.arr xs => xs
      | r => [r]
    geometries.mapM serializeGeometry

/-- Pixel threshold distinguishing mouse wheels from trackpads
(src/parameterCache.ts appended InputController, line 158). -/
def WHEEL_DELTA_THRESHOLD : ℝ := 15

/-- Zoom speed applied to discrete mouse-wheel deltas. -/
def MOUSE_WHEEL_ZOOM_SPEED : ℝ := 0.0008

/-- Zoom speed applied to continuous trackpad deltas. -/
def TRACKPAD_ZOOM_SPEED : ℝ := 0.005

/-- Shallow embedding of `InputController._normalizeWheelDelta`: multiply the
raw `deltaY` by 16 in line mode (`deltaMode === 1`), by 100 in page mode
(`deltaMode === 2`) and by 1 otherwise (pixel mode). -/
def normalizeWheelDelta (deltaMode : ℕ) (deltaY : ℝ) : ℝ :=
  deltaY * (if deltaMode = 1 then 16 else if deltaMode = 2 then 100 else 1)

/-- Shallow embedding of `InputController._getZoomSpeed`: deltas whose
magnitude is strictly greater than the threshold are treated as discrete
mouse-wheel input. -/
noncomputable def getZoomSpeed (delta : ℝ) : ℝ :=
  if WHEEL_DELTA_THRESHOLD < |delta| then MOUSE_WHEEL_ZOOM_SPEED else TRACKPAD_ZOOM_SPEED

/-- Zoom factor computed by `InputController._onWheel` (when enabled):
`Math.exp(delta * zoomSpeed)` of the normalized delta, passed to
`cameraController.zoom`. -/
noncomputable def onWheelZoomFactor (deltaMode : ℕ) (deltaY : ℝ) : ℝ :=
  let delta := normalizeWheelDelta deltaMode deltaY
  Real.exp (delta * getZoomSpeed delta)

/-- Claim C1: for every polygon vertex list with `n ≥ 3` vertices,
`triangulatePolygon` returns exactly `n − 2` triangles, the `i`-th (counting
from 1) being the index triple `(0, i, i+1)` for `i` from 1 to `n − 2`; for
fewer than 3 vertices it returns the empty list. -/
theorem triangulatePolygon_fan (vertices : List Vec3) :
    (3 ≤ vertices.length →
      (triangulatePolygon vertices).length = vertices.length - 2 ∧
      ∀ i : ℕ, 1 ≤ i → i ≤ vertices.length - 2 →
        (triangulatePolygon vertices)[i - 1]? = some (0, i, i + 1)) ∧
    (vertices.length < 3 → triangulatePolygon vertices = []) := by
  constructor
  · intro h3
    have hnot : ¬ vertices.length < 3 := not_lt.mpr h3
    refine ⟨by simp [triangulatePolygon, hnot], ?_⟩
    intro i h1 h2
    have hlt : i - 1 < vertices.length - 2 := by omega
    rw [triangulatePolygon, if_neg hnot, List.getElem?_map,
      List.getElem?_range' _ _ hlt]
    have hi : 1 + 1 * (i - 1) = i := by omega
    rw [hi]
    rfl
  · intro hlt
    simp [triangulatePolygon, hlt]

/-- Concrete instantiation of `triangulatePolygon_fan` at a 4-vertex square:
two triangles, the first being `(0, 1, 2)`. -/
theorem triangulatePolygon_fan_witness :
    (triangulatePolygon
        [Vec3.mk 0 0 0, Vec3.mk 1 0 0, Vec3.mk 1 1 0, Vec3.mk 0 1 0]).length = 2 ∧
    (triangulatePolygon
        [Vec3.mk 0 0 0, Vec3.mk 1 0 0, Vec3.mk 1 1 0, Vec3.mk 0 1 0])[0]? =
      some (0, 1, 2) :=
  ⟨((triangulatePolygon_fan _).1 (by decide)).1,
   ((triangulatePolygon_fan _).1 (by decide)).2 1 (by decide) (by decide)⟩

/-- Claim C7: coercion boundary values.  Coercing the string `"3.9"` for an
integer-typed definition yields `3` (truncation, not rounding); coercing the
string `"TRUE"` for a boolean-typed definition yields `true` (case
insensitive); and for a choice-typed definition, a (defined) cached value
whose string form matches no entry of the declared values list is returned
unchanged. -/
theorem coerceValue_boundaries :
    (∀ d : ParameterDefinition, d.type = ParamType.int →
      coerceValue d (JsValue.str "3.9") = some (JsValue.num 3)) ∧
    (∀ d : ParameterDefinition, d.type = ParamType.checkbox →
      coerceValue d (JsValue.str "TRUE") = some (JsValue.bool true)) ∧
    (∀ (d : ParameterDefinition) (vs : List JsValue) (v : JsValue),
      d.type = ParamType.choice → d.values = some vs → v ≠ JsValue.undef →
      (∀ x ∈ vs, jsToString x ≠ jsToString v) →
      coerceValue d v = some v) := by
  refine ⟨?_, ?_, ?_⟩
  · intro d hd
    have h1 : parseIntJs "3.9" = some 3 := by decide
    have h2 : jsTrunc (3 : ℚ) = 3 := by decide
    simp [coerceValue, hd, h1, h2]
  · intro d hd
    have h1 : (toLowerJs "TRUE" == "true") = true := by decide
    simp [coerceValue, coerceCheckbox, hd, h1]
  · intro d vs v hd hv hundef hnomatch
    have hfind : vs.find? (fun x => jsToString x == jsToString v) = none := by
      rw [List.find?_eq_none]
      intro x hx
      simpa using hnomatch x hx
    cases v with
    | undef => exact absurd rfl hundef
    | null => simp [coerceValue, hd, hv, hfind]
    | bool b => simp [coerceValue, hd, hv, hfind]
    | num q => simp [coerceValue, hd, hv, hfind]
    | nan => simp [coerceValue, hd, hv, hfind]
    | str s => simp [coerceValue, hd, hv, hfind]
    | arr xs => simp [coerceValue, hd, hv, hfind]
    | obj fields => simp [coerceValue, hd, hv, hfind]

/-- Concrete instantiation of `coerceValue_boundaries`: an `int` definition,
a `checkbox` definition and a `choice` definition whose values list does not
contain the cached string. -/
theorem coerceValue_boundaries_witness :
    coerceValue (ParameterDefinition.mk "n" ParamType.int none none none)
        (JsValue.str "3.9") = some (JsValue.num 3) ∧
    coerceValue (ParameterDefinition.mk "b" ParamType.checkbox none none none)
        (JsValue.str "TRUE") = some (JsValue.bool true) ∧
    coerceValue
        (ParameterDefinition.mk "c" ParamType.choice none none
          (some [JsValue.str "red", JsValue.str "blue"]))
        (JsValue.str "green") = some (JsValue.str "green") :=
  ⟨coerceValue_boundaries.1 _ rfl,
   coerceValue_boundaries.2.1 _ rfl,
   coerceValue_boundaries.2.2 _ [JsValue.str "red", JsValue.str "blue"] _ rfl rfl
     (fun h => JsValue.noConfusion h)
     (by decide)⟩

/-- Claim C9: the raw wheel delta is multiplied by 1 in pixel mode, 16 in
line mode and 100 in page mode; a normalized magnitude of exactly the
threshold 15 selects the trackpad zoom speed while magnitude 16 selects the
mouse-wheel zoom speed (strictly-greater-than-threshold semantics); and the
zoom factor applied is `exp(delta * speed)`. -/
theorem onWheel_classification :
    WHEEL_DELTA_THRESHOLD = 15 ∧
    (∀ deltaY : ℝ, normalizeWheelDelta 0 deltaY = deltaY * 1 ∧
      normalizeWheelDelta 1 deltaY = deltaY * 16 ∧
      normalizeWheelDelta 2 deltaY = deltaY * 100) ∧
    (∀ delta : ℝ, |delta| = 15 → getZoomSpeed delta = TRACKPAD_ZOOM_SPEED) ∧
    (∀ delta : ℝ, |delta| = 16 → getZoomSpeed delta = MOUSE_WHEEL_ZOOM_SPEED) ∧
    (∀ delta : ℝ, getZoomSpeed delta =
      if WHEEL_DELTA_THRESHOLD < |delta| then MOUSE_WHEEL_ZOOM_SPEED
      else TRACKPAD_ZOOM_SPEED) ∧
    (∀ (deltaMode : ℕ) (deltaY : ℝ), onWheelZoomFactor deltaMode deltaY =
      Real.exp (normalizeWheelDelta deltaMode deltaY *
        getZoomSpeed (normalizeWheelDelta deltaMode deltaY))) := by
  refine ⟨rfl, ?_, ?_, ?_, fun delta => rfl, fun deltaMode deltaY => rfl⟩
  · intro deltaY
    refine ⟨?_, rfl, rfl⟩
    simp [normalizeWheelDelta]
  · intro delta h
    rw [getZoomSpeed, if_neg]
    rw [h, WHEEL_DELTA_THRESHOLD]
    exact lt_irrefl 15
  · intro delta h
    rw [getZoomSpeed, if_pos]
    rw [h, WHEEL_DELTA_THRESHOLD]
    norm_num

/-- Concrete instantiation of `onWheel_classification` at the boundary:
delta 15 is classified as trackpad input, delta 16 as mouse-wheel input, and
a line-mode wheel event is scaled by 16. -/
theorem onWheel_classification_witness :
    getZoomSpeed 15 = TRACKPAD_ZOOM_SPEED ∧
    getZoomSpeed 16 = MOUSE_WHEEL_ZOOM_SPEED ∧
    normalizeWheelDelta 1 2 = 2 * 16 :=
  ⟨onWheel_classification.2.2.1 15 (by norm_num),
   onWheel_classification.2.2.2.1 16 (by norm_num),
   (onWheel_classification.2.1 2).2.1⟩

/-- Claim C4: when `main()` returns an object with neither a `polygons` array
nor a `sides` array, serialization does not throw but produces a geometry
tagged `unknown` whose `data` is the original object (hence carrying all its
original keys), and `executeJscadFile` returns it. -/
theorem executeJscadFile_unknown_passthrough (fields : List (String × JsValue))
    (params : JsValue)
    (hp : isArray (getField (JsValue.obj fields) "polygons") = false)
    (hs : isArray (getField (JsValue.obj fields) "sides") = false) :
    serializeGeometry (JsValue.obj fields) =
      Except.ok (SerializedGeom.unknown (JsValue.obj fields)) ∧
    executeJscadFile (JscadModule.mk (some (fun _ => JsValue.obj fields))) params =
      Except.ok [SerializedGeom.unknown (JsValue.obj fields)] := by
  have hser : serializeGeometry (JsValue.obj fields) =
      Except.ok (SerializedGeom.unknown (JsValue.obj fields)) := by
    simp [serializeGeometry, hp, hs, truthy]
  refine ⟨hser, ?_⟩
  simp [executeJscadFile, List.mapM.loop, hser]

/-- Concrete instantiation of `executeJscadFile_unknown_passthrough`: an
object with a single key `foo` round-trips under the `unknown` tag. -/
theorem executeJscadFile_unknown_passthrough_witness :
    executeJscadFile
        (JscadModule.mk (some (fun _ => JsValue.obj [("foo", JsValue.num 1)])))
        JsValue.undef =
      Except.ok [SerializedGeom.unknown (JsValue.obj [("foo", JsValue.num 1)])] :=
  (executeJscadFile_unknown_passthrough [("foo", JsValue.num 1)] JsValue.undef
    (by decide) (by decide)).2

/-- Claim C8: a script module without a callable `main` export makes
`executeJscadFile` raise the script-execution error; it never yields a
geometry list in that case. -/
theorem executeJscadFile_missing_main (jscadModule : JscadModule) (params : JsValue)
    (h : jscadModule.main = none) :
    executeJscadFile jscadModule params =
      Except.error "JSCAD file must export a main() function" ∧
    ∀ geoms : List SerializedGeom,
      executeJscadFile jscadModule params ≠ Except.ok geoms := by
  have herr : executeJscadFile jscadModule params =
      Except.error "JSCAD file must export a main() function" := by
    rw [executeJscadFile, h]
  exact ⟨herr, fun geoms hok => by rw [herr] at hok; exact Except.noConfusion hok⟩

/-- Concrete instantiation of `executeJscadFile_missing_main` at a module with
no `main` export. -/
theorem executeJscadFile_missing_main_witness :
    executeJscadFile (JscadModule.mk none) JsValue.undef =
      Except.error "JSCAD file must export a main() function" :=
  (executeJscadFile_missing_main (JscadModule.mk none) JsValue.undef rfl).1

/-- Claim C6: entrypoint resolution priority.  A manifest `main` field
pointing at an existing `.jscad` file wins with source `package.json`; else
an `index.jscad` at the workspace root wins with source `index.jscad`; else
an active-editor path with the `.jscad` extension wins with source
`active-editor`; else the result is `null`; and a manifest whose JSON fails
to parse is treated as no manifest match, so resolution continues. -/
theorem resolveJscadEntrypoint_priority (fs : ResolveFs) (root : String)
    (active : Option String) :
    (∀ (packageJson : JsonManifest) (m : String),
      fs.fileExists (joinPath root "package.json") = true →
      fs.packageJsonParse = Except.ok packageJson → packageJson.main = some m →
      jsEndsWith (joinPath root m) ".jscad" = true →
      fs.fileExists (joinPath root m) = true →
      resolveJscadEntrypointWithOptions fs (some root) active =
        some (JscadEntrypoint.mk (joinPath root m) EntrySource.packageJson)) ∧
    (manifestStep fs root = none →
      fs.fileExists (joinPath root "index.jscad") = true →
      resolveJscadEntrypointWithOptions fs (some root) active =
        some (JscadEntrypoint.mk (joinPath root "index.jscad") EntrySource.indexJscad)) ∧
    (manifestStep fs root = none →
      fs.fileExists (joinPath root "index.jscad") = false →
      resolveJscadEntrypointWithOptions fs (some root) active =
        resolveFromActiveEditor active) ∧
    (∀ p, active = some p → jsEndsWith p ".jscad" = true →
      resolveFromActiveEditor active = some (JscadEntrypoint.mk p EntrySource.activeEditor)) ∧
    (∀ p, active = some p → jsEndsWith p ".jscad" = false →
      resolveFromActiveEditor active = none) ∧
    (active = none → resolveFromActiveEditor active = none) ∧
    (∀ e, fs.fileExists (joinPath root "package.json") = true →
      fs.packageJsonParse = Except.error e → manifestStep fs root = none) := by
  refine ⟨?_, ?_, ?_, ?_, ?_, ?_, ?_⟩
  · intro packageJson m hpkg hparse hmain hext hmainExists
    have hstep : manifestStep fs root =
        some (JscadEntrypoint.mk (joinPath root m) EntrySource.packageJson) := by
      simp [manifestStep, hpkg, hparse, hmain, hext, hmainExists]
    simp [resolveJscadEntrypointWithOptions, hstep]
  · intro hmiss hidx
    simp [resolveJscadEntrypointWithOptions, hmiss, hidx]
  · intro hmiss hidx
    simp [resolveJscadEntrypointWithOptions, hmiss, hidx]
  · intro p hp hext
    simp [resolveFromActiveEditor, hp, hext]
  · intro p hp hext
    simp [resolveFromActiveEditor, hp, hext]
  · intro hnone
    simp [resolveFromActiveEditor, hnone]
  · intro e hpkg hparse
    simp [manifestStep, hpkg, hparse]

/-- Concrete instantiation of `resolveJscadEntrypoint_priority`: a workspace
whose manifest points at an existing `main.jscad` resolves to it with source
`package.json`, and a malformed manifest is skipped in favor of an existing
`index.jscad`. -/
theorem resolveJscadEntrypoint_priority_witness :
    resolveJscadEntrypointWithOptions
        (ResolveFs.mk
          (fun p => p = "ws/package.json" ∨ p = "ws/main.jscad" ∨ p = "ws/index.jscad")
          (Except.ok (JsonManifest.mk (some "main.jscad"))))
        (some "ws") none =
      some (JscadEntrypoint.mk "ws/main.jscad" EntrySource.packageJson) ∧
    resolveJscadEntrypointWithOptions
        (ResolveFs.mk
          (fun p => p = "ws/package.json" ∨ p = "ws/index.jscad")
          (Except.error ()))
        (some "ws") none =
      some (JscadEntrypoint.mk "ws/index.jscad" EntrySource.indexJscad) :=
  ⟨(resolveJscadEntrypoint_priority _ "ws" none).1 (JsonManifest.mk (some "main.jscad"))
      "main.jscad" (by decide) rfl rfl (by decide) (by decide),
   (resolveJscadEntrypoint_priority _ "ws" none).2.1
      ((resolveJscadEntrypoint_priority _ "ws" none).2.2.2.2.2.2 () (by decide) rfl)
      (by decide)⟩

/-- Claim C10: `updateParameter` changes only the named parameter of the named
file: lookups of every other file path are unchanged, and every other
parameter name of the same file keeps its value. -/
theorem updateParameter_frame (cache : CacheState) (filePath paramName : String)
    (value : JsValue) :
    (∀ otherPath, otherPath ≠ filePath →
      updateParameter cache filePath paramName value otherPath = cache otherPath) ∧
    (∀ otherName, otherName ≠ paramName →
      ((updateParameter cache filePath paramName value filePath).getD JsRecord.empty)
          otherName =
        ((cache filePath).getD JsRecord.empty) otherName) := by
  constructor
  · intro otherPath hne
    simp [updateParameter, hne]
  · intro otherName hne
    simp [updateParameter, JsRecord.set, hne]

/-- Concrete instantiation of `updateParameter_frame`: updating `size` of
`a.jscad` leaves `b.jscad` and the `flag` parameter of `a.jscad` untouched. -/
theorem updateParameter_frame_witness :
    updateParameter frameWitnessCache "a.jscad" "size" (JsValue.num 7) "b.jscad" =
      frameWitnessCache "b.jscad" ∧
    ((updateParameter frameWitnessCache "a.jscad" "size" (JsValue.num 7) "a.jscad").getD
        JsRecord.empty) "flag" =
      ((frameWitnessCache "a.jscad").getD JsRecord.empty) "flag" :=
  ⟨(updateParameter_frame frameWitnessCache "a.jscad" "size" (JsValue.num 7)).1
      "b.jscad" (by decide),
   (updateParameter_frame frameWitnessCache "a.jscad" "size" (JsValue.num 7)).2
      "flag" (by decide)⟩

/-- Reading back the key just assigned. -/
theorem JsRecord.set_same (m : JsRecord) (k : String) (v : JsValue) :
    m.set k v k = some v := by
  simp [JsRecord.set]

/-- Assigning one key leaves every other key unchanged. -/
theorem JsRecord.set_other (m : JsRecord) {k k2 : String} (v : JsValue) (h : k2 ≠ k) :
    m.set k v k2 = m k2 := by
  simp [JsRecord.set, h]

/-- The defaults loop never touches a key that is not a definition name. -/
theorem mergeDefaults_loop_not_mem (defs : List ParameterDefinition) (m : JsRecord)
    (k : String) (h : k ∉ defs.map ParameterDefinition.name) :
    defs.foldl applyDefault m k = m k := by
  induction defs generalizing m with
  | nil => rfl
  | cons d rest ih =>
    simp only [List.map_cons, List.mem_cons, not_or] at h
    rw [List.foldl_cons, ih _ (by exact h.2)]
    cases hdv : defaultValue d with
    | some v => simp [applyDefault, hdv, JsRecord.set, h.1]
    | none => simp [applyDefault, hdv]

/-- With pairwise-distinct definition names, the defaults loop maps a
definition's name to its computed default (or leaves the initial record's
value when no default is computed). -/
theorem mergeDefaults_loop_mem (defs : List ParameterDefinition) (m : JsRecord)
    (d : ParameterDefinition) (hnd : (defs.map ParameterDefinition.name).Nodup)
    (hd : d ∈ defs) :
    defs.foldl applyDefault m d.name =
      match defaultValue d with
      | some v => some v
      | none => m d.name := by
  induction defs generalizing m with
  | nil => exact absurd hd (List.not_mem_nil d)
  | cons d0 rest ih =>
    simp only [List.map_cons, List.nodup_cons] at hnd
    rw [List.foldl_cons]
    rcases List.mem_cons.mp hd with rfl | hmem
    · rw [mergeDefaults_loop_not_mem _ _ _ hnd.1]
      cases hdv : defaultValue d with
      | some v => simp [applyDefault, hdv, JsRecord.set]
      | none => simp [applyDefault, hdv]
    · have hne : d.name ≠ d0.name := by
        intro he
        exact hnd.1 (he ▸ List.mem_map_of_mem ParameterDefinition.name hmem)
      rw [ih _ hnd.2 hmem]
      cases hdv0 : defaultValue d0 with
      | some v => simp [applyDefault, hdv0, JsRecord.set, hne]
      | none => simp [applyDefault, hdv0]

/-- The overrides loop never touches a key that is not a definition name. -/
theorem mergeOverrides_loop_not_mem (cached : JsRecord) (defs : List ParameterDefinition)
    (m : JsRecord) (k : String) (h : k ∉ defs.map ParameterDefinition.name) :
    defs.foldl (applyOverride cached) m k = m k := by
  induction defs generalizing m with
  | nil => rfl
  | cons d rest ih =>
    simp only [List.map_cons, List.mem_cons, not_or] at h
    rw [List.foldl_cons, ih _ (by exact h.2)]
    cases hcv : cached d.name with
    | some cv =>
      cases hco : coerceValue d cv with
      | some c => simp [applyOverride, hcv, hco, JsRecord.set, h.1]
      | none => simp [applyOverride, hcv, hco]
    | none => simp [applyOverride, hcv]

/-- With pairwise-distinct definition names, the overrides loop maps a
definition's name to its successfully coerced cached value, and otherwise
leaves the incoming record's value. -/
theorem mergeOverrides_loop_mem (cached : JsRecord) (defs : List ParameterDefinition)
    (m : JsRecord) (d : ParameterDefinition)
    (hnd : (defs.map ParameterDefinition.name).Nodup) (hd : d ∈ defs) :
    defs.foldl (applyOverride cached) m d.name =
      match cached d.name with
      | some cv =>
        match coerceValue d cv with
        | some c => some c
        | none => m d.name
      | none => m d.name := by
  induction defs generalizing m with
  | nil => exact absurd hd (List.not_mem_nil d)
  | cons d0 rest ih =>
    simp only [List.map_cons, List.nodup_cons] at hnd
    rw [List.foldl_cons]
    rcases List.mem_cons.mp hd with rfl | hmem
    · rw [mergeOverrides_loop_not_mem _ _ _ _ hnd.1]
      cases hcv : cached d.name with
      | some cv =>
        cases hco : coerceValue d cv with
        | some c => simp [applyOverride, hcv, hco, JsRecord.set]
        | none => simp [applyOverride, hcv, hco]
      | none => simp [applyOverride, hcv]
    · have hne : d.name ≠ d0.name := by
        intro he
        exact hnd.1 (he ▸ List.mem_map_of_mem ParameterDefinition.name hmem)
      rw [ih _ hnd.2 hmem]
      cases hcv0 : cached d0.name with
      | some cv0 =>
        cases hco0 : coerceValue d0 cv0 with
        | some c0 => simp [applyOverride, hcv0, hco0, JsRecord.set, hne]
        | none => simp [applyOverride, hcv0, hco0]
      | none => simp [applyOverride, hcv0]

/-- Claim C2: merge precedence.  For a definition whose name has an own
property in the cached record, the merged mapping holds the coerced cached
value when coercion succeeds, and the definition's computed default
otherwise. -/
theorem getMergedParameters_precedence (definitions : List ParameterDefinition)
    (cached : JsRecord) (d : ParameterDefinition) (cv : JsValue)
    (hnd : (definitions.map ParameterDefinition.name).Nodup)
    (hd : d ∈ definitions) (hc : cached d.name = some cv) :
    getMergedParameters cached definitions d.name =
      if (coerceValue d cv).isSome then coerceValue d cv else defaultValue d := by
  rw [getMergedParameters, mergeOverrides,
    mergeOverrides_loop_mem cached definitions _ d hnd hd, hc]
  cases hco : coerceValue d cv with
  | some c => simp [hco]
  | none =>
    simp only [hco, Option.isSome_none, Bool.false_eq_true, if_false]
    rw [mergeDefaults, mergeDefaults_loop_mem _ _ d hnd hd]
    cases hdv : defaultValue d with
    | some v => simp [hdv]
    | none => simp [hdv, JsRecord.empty]

/-- Concrete instantiation of `getMergedParameters_precedence`: an `int`
definition with default 10 and cached override `"3.9"`. -/
theorem getMergedParameters_precedence_witness :
    getMergedParameters (JsRecord.empty.set "size" (JsValue.str "3.9"))
        [ParameterDefinition.mk "size" ParamType.int (some (JsValue.num 10)) none none]
        "size" =
      if (coerceValue
            (ParameterDefinition.mk "size" ParamType.int (some (JsValue.num 10)) none none)
            (JsValue.str "3.9")).isSome
      then coerceValue
            (ParameterDefinition.mk "size" ParamType.int (some (JsValue.num 10)) none none)
            (JsValue.str "3.9")
      else defaultValue
            (ParameterDefinition.mk "size" ParamType.int (some (JsValue.num 10)) none none) :=
  getMergedParameters_precedence _ _ _ (JsValue.str "3.9")
    (by simp) (List.mem_singleton.mpr rfl) (by simp [JsRecord.set])

/-- Counterexample to claim C3 as stated: a `number`-typed definition with no
declared `initial` and no cached override produces no entry in the merged
mapping, although its name is declared. -/
theorem getMergedParameters_missing_entry :
    "height" ∈
      ([ParameterDefinition.mk "height" ParamType.number none none none].map
        ParameterDefinition.name) ∧
    getMergedParameters JsRecord.empty
        [ParameterDefinition.mk "height" ParamType.number none none none] "height" =
      none :=
  ⟨List.mem_singleton.mpr rfl, rfl⟩

/-- Keys assigned by the defaults loop: a key is present in the result exactly
when it was present in the starting record or some definition with that name
computes a default. -/
theorem mergeDefaults_loop_isSome (defs : List ParameterDefinition) (m : JsRecord)
    (k : String) :
    (defs.foldl applyDefault m k).isSome = true ↔
      (m k).isSome = true ∨
        ∃ d ∈ defs, d.name = k ∧ (defaultValue d).isSome = true := by
  induction defs generalizing m with
  | nil => simp
  | cons d0 rest ih =>
    rw [List.foldl_cons, ih]
    have hstep : ((applyDefault m d0) k).isSome = true ↔
        (m k).isSome = true ∨ (d0.name = k ∧ (defaultValue d0).isSome = true) := by
      cases hdv : defaultValue d0 with
      | some v =>
        by_cases hk : k = d0.name
        · subst hk
          simp [applyDefault, hdv, JsRecord.set]
        · simp [applyDefault, hdv, JsRecord.set, hk, Ne.symm hk]
      | none => simp [applyDefault, hdv]
    rw [hstep]
    constructor
    · rintro ((hm | hd0) | ⟨d, hdmem, hdk, hdv⟩)
      · exact Or.inl hm
      · exact Or.inr ⟨d0, List.mem_cons_self d0 rest, hd0.1, hd0.2⟩
      · exact Or.inr ⟨d, List.mem_cons_of_mem d0 hdmem, hdk, hdv⟩
    · rintro (hm | ⟨d, hdmem, hdk, hdv⟩)
      · exact Or.inl (Or.inl hm)
      · rcases List.mem_cons.mp hdmem with rfl | hdrest
        · exact Or.inl (Or.inr ⟨hdk, hdv⟩)
        · exact Or.inr ⟨d, hdrest, hdk, hdv⟩

/-- Keys assigned by the overrides loop: a key is present in the result
exactly when it was already present or some definition with that name has a
cached value that coerces successfully. -/
theorem mergeOverrides_loop_isSome (cached : JsRecord) (defs : List ParameterDefinition)
    (m : JsRecord) (k : String) :
    (defs.foldl (applyOverride cached) m k).isSome = true ↔
      (m k).isSome = true ∨
        ∃ d ∈ defs, d.name = k ∧
          ∃ cv, cached k = some cv ∧ (coerceValue d cv).isSome = true := by
  induction defs generalizing m with
  | nil => simp
  | cons d0 rest ih =>
    rw [List.foldl_cons, ih]
    have hstep : ((applyOverride cached m d0) k).isSome = true ↔
        (m k).isSome = true ∨
          (d0.name = k ∧ ∃ cv, cached k = some cv ∧ (coerceValue d0 cv).isSome = true) := by
      by_cases hk : k = d0.name
      · subst hk
        cases hcv : cached d0.name with
        | some cv =>
          cases hco : coerceValue d0 cv with
          | some c =>
            simp [applyOverride, hcv, hco, JsRecord.set]
          | none =>
            simp only [applyOverride, hcv, hco]
            constructor
            · exact fun hm => Or.inl hm
            · rintro (hm | ⟨-, cv2, hcv2, hco2⟩)
              · exact hm
              · injection hcv2 with hcv2
                subst hcv2
                rw [hco] at hco2
                simp at hco2
        | none =>
          simp only [applyOverride, hcv]
          constructor
          · exact fun hm => Or.inl hm
          · rintro (hm | ⟨-, cv2, hcv2, hco2⟩)
            · exact hm
            · exact Option.noConfusion hcv2
      · have hrec : (applyOverride cached m d0) k = m k := by
          cases hcv : cached d0.name with
          | some cv =>
            cases hco : coerceValue d0 cv with
            | some c => simp [applyOverride, hcv, hco, JsRecord.set, hk]
            | none => simp [applyOverride, hcv, hco]
          | none => simp [applyOverride, hcv]
        simp [hrec, Ne.symm hk]
    rw [hstep]
    constructor
    · rintro ((hm | hd0) | ⟨d, hdmem, hdk, hrest⟩)
      · exact Or.inl hm
      · exact Or.inr ⟨d0, List.mem_cons_self d0 rest, hd0.1, hd0.2⟩
      · exact Or.inr ⟨d, List.mem_cons_of_mem d0 hdmem, hdk, hrest⟩
    · rintro (hm | ⟨d, hdmem, hdk, hrest⟩)
      · exact Or.inl (Or.inl hm)
      · rcases List.mem_cons.mp hdmem with rfl | hdrest
        · exact Or.inl (Or.inr ⟨hdk, hrest⟩)
        · exact Or.inr ⟨d, hdrest, hdk, hrest⟩

/-- Claim C3, amended to what the code does: the merged mapping has an entry
for a key exactly when some definition carries that name and either computes
a default (checkbox; choice with an `initial` or a non-empty `values` list;
any type with a declared `initial`) or has a cached override that coerces
successfully.  In particular the key set is always a subset of the declared
names, but a definition with no computed default and no surviving override
produces no entry. -/
theorem getMergedParameters_keys (definitions : List ParameterDefinition)
    (cached : JsRecord) (k : String) :
    (getMergedParameters cached definitions k).isSome = true ↔
      ∃ d ∈ definitions, d.name = k ∧
        ((defaultValue d).isSome = true ∨
          ∃ cv, cached k = some cv ∧ (coerceValue d cv).isSome = true) := by
  rw [getMergedParameters, mergeOverrides, mergeOverrides_loop_isSome, mergeDefaults,
    mergeDefaults_loop_isSome]
  have hempty : (JsRecord.empty k).isSome = false := rfl
  rw [hempty]
  constructor
  · rintro ((h | ⟨d, hdmem, hdk, hdv⟩) | ⟨d, hdmem, hdk, hcv⟩)
    · cases h
    · exact ⟨d, hdmem, hdk, Or.inl hdv⟩
    · exact ⟨d, hdmem, hdk, Or.inr hcv⟩
  · rintro ⟨d, hdmem, hdk, hdv | hcv⟩
    · exact Or.inl (Or.inr ⟨d, hdmem, hdk, hdv⟩)
    · exact Or.inr ⟨d, hdmem, hdk, hcv⟩

/-- Componentwise extensionality for `Vec3`. -/
theorem Vec3.eq_of_comps {v w : Vec3} (hx : v.x = w.x) (hy : v.y = w.y) (hz : v.z = w.z) :
    v = w := by
  cases v
  cases w
  simp_all

/-- Squared length of a nonzero vector is positive. -/
theorem Vec3.sumsq_pos {v : Vec3} (h : v ≠ Vec3.mk 0 0 0) :
    0 < v.x * v.x + v.y * v.y + v.z * v.z := by
  rcases lt_or_eq_of_le
      (add_nonneg (add_nonneg (mul_self_nonneg v.x) (mul_self_nonneg v.y))
        (mul_self_nonneg v.z)) with
    hlt | heq
  · exact hlt
  · exfalso
    apply h
    have hx2 : v.x * v.x = 0 := by
      nlinarith [mul_self_nonneg v.x, mul_self_nonneg v.y, mul_self_nonneg v.z]
    have hy2 : v.y * v.y = 0 := by
      nlinarith [mul_self_nonneg v.x, mul_self_nonneg v.y, mul_self_nonneg v.z]
    have hz2 : v.z * v.z = 0 := by
      nlinarith [mul_self_nonneg v.x, mul_self_nonneg v.y, mul_self_nonneg v.z]
    exact Vec3.eq_of_comps (mul_self_eq_zero.mp hx2) (mul_self_eq_zero.mp hy2)
      (mul_self_eq_zero.mp hz2)

/-- Unfolding of `vecLength` on an explicit triple. -/
theorem vecLength_mk (a b c : ℝ) :
    vecLength (Vec3.mk a b c) = Real.sqrt (a * a + b * b + c * c) := rfl

/-- A vector of zero computed length is the zero vector. -/
theorem vecLength_eq_zero {v : Vec3} (h : vecLength v = 0) : v = Vec3.mk 0 0 0 := by
  by_contra hne
  have hpos : 0 < vecLength v := Real.sqrt_pos.mpr (Vec3.sumsq_pos hne)
  exact absurd h (ne_of_gt hpos)

/-- Claim C5: for every polygon with at least 3 vertices processed by the
solid-to-buffer conversion, the emitted face normal is the cross product
`(v1−v0)×(v2−v0)` scaled to unit length when that cross product is nonzero
(and then has length exactly 1), is exactly the zero vector when the cross
product has zero length (no division happens), and is replicated for every
vertex of every triangle of the polygon's fan triangulation. -/
theorem convertGeom3_normal_spec (geom3 : Geom3) (p : List Vec3)
    (hp : p ∈ geom3.polygons) (h3 : 3 ≤ p.length) :
    (edgeCross p ≠ Vec3.mk 0 0 0 →
      normalizedFaceNormal p =
        Vec3.mk ((edgeCross p).x / vecLength (edgeCross p))
          ((edgeCross p).y / vecLength (edgeCross p))
          ((edgeCross p).z / vecLength (edgeCross p)) ∧
      vecLength (normalizedFaceNormal p) = 1) ∧
    (vecLength (edgeCross p) = 0 → normalizedFaceNormal p = Vec3.mk 0 0 0) ∧
    polygonNormals p =
      (triangulatePolygon p).flatMap (fun _ =>
        [(normalizedFaceNormal p).x, (normalizedFaceNormal p).y, (normalizedFaceNormal p).z,
         (normalizedFaceNormal p).x, (normalizedFaceNormal p).y, (normalizedFaceNormal p).z,
         (normalizedFaceNormal p).x, (normalizedFaceNormal p).y,
         (normalizedFaceNormal p).z]) ∧
    (convertGeom3ToBufferGeometry geom3).normals = geom3.polygons.flatMap polygonNormals := by
  have hnot : ¬ p.length < 3 := not_lt.mpr h3
  refine ⟨?_, ?_, ?_, rfl⟩
  · intro hne
    have hS : 0 < (edgeCross p).x * (edgeCross p).x + (edgeCross p).y * (edgeCross p).y +
        (edgeCross p).z * (edgeCross p).z := Vec3.sumsq_pos hne
    have hL : 0 < vecLength (edgeCross p) := Real.sqrt_pos.mpr hS
    have hL0 : vecLength (edgeCross p) ≠ 0 := ne_of_gt hL
    have heq : normalizedFaceNormal p =
        Vec3.mk ((edgeCross p).x / vecLength (edgeCross p))
          ((edgeCross p).y / vecLength (edgeCross p))
          ((edgeCross p).z / vecLength (edgeCross p)) := by
      simp only [normalizedFaceNormal]
      rw [if_pos hL]
    refine ⟨heq, ?_⟩
    rw [heq]
    have hLL : vecLength (edgeCross p) * vecLength (edgeCross p) =
        (edgeCross p).x * (edgeCross p).x + (edgeCross p).y * (edgeCross p).y +
          (edgeCross p).z * (edgeCross p).z :=
      Real.mul_self_sqrt (le_of_lt hS)
    have hone : ((edgeCross p).x / vecLength (edgeCross p)) *
          ((edgeCross p).x / vecLength (edgeCross p)) +
        ((edgeCross p).y / vecLength (edgeCross p)) *
          ((edgeCross p).y / vecLength (edgeCross p)) +
        ((edgeCross p).z / vecLength (edgeCross p)) *
          ((edgeCross p).z / vecLength (edgeCross p)) = 1 := by
      field_simp
      linarith [hLL]
    rw [vecLength_mk, hone, Real.sqrt_one]
  · intro h0
    have hc0 : edgeCross p = Vec3.mk 0 0 0 := vecLength_eq_zero h0
    simp [normalizedFaceNormal, hc0, vecLength]
  · simp only [polygonNormals, if_neg hnot]
    rfl

/-- Concrete instantiation of `convertGeom3_normal_spec` at a unit square in
the xy-plane: the emitted normal has unit length, and the geometry's normals
buffer is the concatenation of the per-polygon normal runs. -/
theorem convertGeom3_normal_spec_witness :
    vecLength (normalizedFaceNormal
      [Vec3.mk 0 0 0, Vec3.mk 1 0 0, Vec3.mk 1 1 0, Vec3.mk 0 1 0]) = 1 ∧
    (convertGeom3ToBufferGeometry
        (Geom3.mk [[Vec3.mk 0 0 0, Vec3.mk 1 0 0, Vec3.mk 1 1 0, Vec3.mk 0 1 0]]
          none)).normals =
      [[Vec3.mk 0 0 0, Vec3.mk 1 0 0, Vec3.mk 1 1 0, Vec3.mk 0 1 0]].flatMap
        polygonNormals :=
  ⟨((convertGeom3_normal_spec
        (Geom3.mk [[Vec3.mk 0 0 0, Vec3.mk 1 0 0, Vec3.mk 1 1 0, Vec3.mk 0 1 0]] none)
        [Vec3.mk 0 0 0, Vec3.mk 1 0 0, Vec3.mk 1 1 0, Vec3.mk 0 1 0]
        (by simp) (by decide)).1
      (by
        intro h
        have hz := congrArg Vec3.z h
        simp [edgeCross] at hz)).2,
   (convertGeom3_normal_spec
        (Geom3.mk [[Vec3.mk 0 0 0, Vec3.mk 1 0 0, Vec3.mk 1 1 0, Vec3.mk 0 1 0]] none)
        [Vec3.mk 0 0 0, Vec3.mk 1 0 0, Vec3.mk 1 1 0, Vec3.mk 0 1 0]
        (by simp) (by decide)).2.2.2⟩
